import Mathlib

/-!
Verification development for the Vivid VS Code extension's source
synchronization core.

The definitions below are a shallow embedding of the TypeScript sources:

* `src/cppParser.ts` — the Tree-sitter based structural parser.  A parse
  tree delivered by the (external) web-tree-sitter library is embedded as
  the inductive `TSNode`; every tree-walking function of `cppParser.ts`
  (`findChildOfType`, `walkTree`, `findOperatorDeclarations`,
  `findMemberAssignments`, `findInputCalls`, `isConstantLiteral`,
  `parseChainFile`) is translated directly.  The external parser itself
  (`parser.parse`) is a parameter of type `String → Option TSNode`.
* `src/chainCodeSync.ts` — the `ChainCodeSync` class.  Its mutable fields
  become the record `SyncState`; the editor document is embedded as its
  list of lines; `setTimeout`/`clearTimeout` debounce timers become an
  explicit list of live timer entries, with `timerFire` modelling the
  event loop invoking a due timeout callback.
* `src/runtimeClient.ts` — the reconnect backoff bookkeeping of
  `RuntimeClient`.
* `src/mcpConfigChecker.ts` — the `/prepare-for-edit` HTTP hook handler,
  as a pure function of the request body, the dirty state of the tracked
  buffer and the user's dialog choice.

JavaScript numbers are modelled as exact decimal fixed-point values
(`JSNum`, an integer mantissa scaled by a power of ten); the claims only
exercise values of this shape, so binary-float rounding never matters.
JavaScript objects used as string-keyed maps are modelled as association
lists with insert-or-overwrite (`upsert`), which preserves the insertion
order that `Object.entries`/`Object.values` iterate in.
-/

/-! ## String primitives

Character-list implementations of the JavaScript string operations the
sources use.  (They are extensionally the standard library functions; the
list form keeps every definition evaluable by `decide` on concrete
inputs.) -/

/-- `s.slice(n)` / `String.drop`. -/
def strDrop (s : String) (n : Nat) : String := ⟨s.data.drop n⟩

/-- `s.slice(0, n)` / `String.take`. -/
def strTake (s : String) (n : Nat) : String := ⟨s.data.take n⟩

/-- Remove the last `n` characters. -/
def strDropRight (s : String) (n : Nat) : String :=
  ⟨s.data.take (s.data.length - n)⟩

/-- `s.length` (code points; the sources only manipulate characters of the
basic plane, where this agrees with JavaScript's UTF-16 length). -/
def strLength (s : String) : Nat := s.data.length

/-- `s.startsWith(p)`. -/
def strStartsWith (s p : String) : Bool := p.data.isPrefixOf s.data

/-- `s.endsWith(p)`. -/
def strEndsWith (s p : String) : Bool := p.data.isSuffixOf s.data

/-- `s.includes(c)` for a single character. -/
def strContainsChar (s : String) (c : Char) : Bool := s.data.contains c

/-- The longest `p`-satisfying prefix of `s` (the match of a leading-anchored
character-class regex such as `/^(\s*)/`). -/
def strTakeWhile (p : Char → Bool) (s : String) : String :=
  ⟨s.data.takeWhile p⟩

/-- Remove the longest `p`-satisfying suffix of `s`. -/
def strDropRightWhile (p : Char → Bool) (s : String) : String :=
  ⟨(s.data.reverse.dropWhile p).reverse⟩

/-! ## Tree-sitter parse trees (external input to `cppParser.ts`) -/

/-- A point in a parse tree, as reported by tree-sitter
(`startPosition`/`endPosition`). -/
structure TSPoint where
  row : Nat
  column : Nat
deriving DecidableEq

/-- A web-tree-sitter syntax node.  `fieldTag` is the grammar field name this
node occupies in its parent (`childForFieldName` looks children up by it);
`startIndex`/`endIndex` are the node's offsets in the source text. -/
inductive TSNode : Type where
  | mk (kind : String) (fieldTag : Option String) (text : String)
       (startPos endPos : TSPoint) (startIndex endIndex : Nat)
       (children : List TSNode) : TSNode

def TSNode.kind : TSNode → String
  | .mk k _ _ _ _ _ _ _ => k

def TSNode.fieldTag : TSNode → Option String
  | .mk _ f _ _ _ _ _ _ => f

def TSNode.text : TSNode → String
  | .mk _ _ t _ _ _ _ _ => t

def TSNode.startPos : TSNode → TSPoint
  | .mk _ _ _ s _ _ _ _ => s

def TSNode.endPos : TSNode → TSPoint
  | .mk _ _ _ _ e _ _ _ => e

def TSNode.startIndex : TSNode → Nat
  | .mk _ _ _ _ _ s _ _ => s

def TSNode.endIndex : TSNode → Nat
  | .mk _ _ _ _ _ _ e _ => e

def TSNode.children : TSNode → List TSNode
  | .mk _ _ _ _ _ _ _ cs => cs

/-- `node.childForFieldName(name)`: the first child carrying the grammar
field `name`. -/
def TSNode.childForFieldName (n : TSNode) (name : String) : Option TSNode :=
  n.children.find? (fun c => c.fieldTag = some name)

/-- `findChildOfType` from `cppParser.ts`: first scan the direct children for
a node of the requested type, then scan the grandchildren one level down. -/
def findChildOfType (n : TSNode) (t : String) : Option TSNode :=
  match n.children.find? (fun c => c.kind = t) with
  | some c => some c
  | none => ((n.children.map TSNode.children).flatten).find? (fun c => c.kind = t)

mutual

/-- The node visit order of `walkTree` from `cppParser.ts`: the node itself,
then each child subtree in order. -/
def TSNode.preorder : TSNode → List TSNode
  | .mk k f t sp ep si ei cs => .mk k f t sp ep si ei cs :: preorderList cs

def preorderList : List TSNode → List TSNode
  | [] => []
  | c :: cs => c.preorder ++ preorderList cs

end

/-! ## `cppParser.ts`: structural parsing of chain.cpp -/

structure ParsedOperator where
  name : String
  variableName : String
  typeName : String
  line : Nat
  startColumn : Nat
  endColumn : Nat
deriving DecidableEq

structure ParsedParam where
  operatorVar : String
  paramName : String
  value : String
  line : Nat
  startColumn : Nat
  endColumn : Nat
  startByte : Nat
  endByte : Nat
  isConstant : Bool
deriving DecidableEq

structure ParsedInputCall where
  operatorVar : String
  inputName : String
  line : Nat
  startColumn : Nat
  endColumn : Nat
deriving DecidableEq

/-- The regex replace `/^["\x27]|["\x27]$/g` used to strip one leading and one
trailing quote character from a string literal's text. -/
def stripQuotes (s : String) : String :=
  let s1 := if strStartsWith s "\"" || strStartsWith s "\x27" then strDrop s 1 else s
  if strEndsWith s1 "\"" || strEndsWith s1 "\x27" then strDropRight s1 1 else s1

/-- `isConstantLiteral` from `cppParser.ts`: number literals, the keywords
`true`/`false`, and string literals are constants; everything else
(identifiers, binary expressions, call expressions, ...) is not. -/
def isConstantLiteral (n : TSNode) : Bool :=
  n.kind = "number_literal" || n.kind = "true" || n.kind = "false" ||
  n.kind = "string_literal"

/-- The per-node body of `findOperatorDeclarations`: recognize
`auto& var = chain.add<Type>("name")` declarations. -/
def operatorOfNode (n : TSNode) : Option ParsedOperator := do
  guard (n.kind = "declaration")
  let initDecl ← findChildOfType n "init_declarator"
  let callExpr ← findChildOfType initDecl "call_expression"
  let funcExpr ← callExpr.childForFieldName "function"
  guard (funcExpr.kind = "field_expression")
  let templateMethod ← findChildOfType funcExpr "template_method"
  let fieldId ← findChildOfType templateMethod "field_identifier"
  guard (fieldId.text = "add")
  let varName :=
    match findChildOfType initDecl "reference_declarator" with
    | some refDecl =>
      match findChildOfType refDecl "identifier" with
      | some id => id.text
      | none => ""
    | none => ""
  let typeName :=
    match findChildOfType templateMethod "template_argument_list" with
    | some templateArgs =>
      match findChildOfType templateArgs "type_descriptor" with
      | some typeDesc =>
        match findChildOfType typeDesc "type_identifier" with
        | some typeId => typeId.text
        | none => ""
      | none => ""
    | none => ""
  let args ← callExpr.childForFieldName "arguments"
  let stringLit ← findChildOfType args "string_literal"
  let chainName :=
    match findChildOfType stringLit "string_content" with
    | some stringContent => stringContent.text
    | none => stripQuotes stringLit.text
  guard (varName ≠ "" ∧ chainName ≠ "")
  pure { name := chainName, variableName := varName, typeName := typeName,
         line := n.startPos.row, startColumn := n.startPos.column,
         endColumn := n.endPos.column }

/-- `findOperatorDeclarations` from `cppParser.ts`. -/
def findOperatorDeclarations (root : TSNode) : List ParsedOperator :=
  root.preorder.filterMap operatorOfNode

/-- The child scan of `findMemberAssignments` locating the left
`field_expression` and the right-hand value of an `assignment_expression`.
It mirrors the source loop exactly: the first `field_expression` becomes the
left side, `=` is skipped, and once the left side is set the next child that
is neither `=` nor `;` becomes the right side (breaking the loop). -/
def lrScan : List TSNode → Option TSNode → Option TSNode × Option TSNode
  | [], left => (left, none)
  | c :: rest, none =>
    if c.kind = "field_expression" then lrScan rest (some c)
    else lrScan rest none
  | c :: rest, some l =>
    if c.kind = "=" then lrScan rest (some l)
    else if c.kind = ";" then lrScan rest (some l)
    else (some l, some c)

/-- The per-node body of `findMemberAssignments`: recognize statements
`var.param = value;` whose `var` is a known operator variable. -/
def paramOfNode (operatorSet : List String) (n : TSNode) : Option ParsedParam := do
  guard (n.kind = "expression_statement")
  let assignExpr ← findChildOfType n "assignment_expression"
  let (left?, right?) := lrScan assignExpr.children none
  let left ← left?
  let right ← right?
  guard (left.kind = "field_expression")
  let object ← findChildOfType left "identifier"
  let fieldId ← findChildOfType left "field_identifier"
  guard (operatorSet.contains object.text)
  pure { operatorVar := object.text, paramName := fieldId.text,
         value := right.text, line := right.startPos.row,
         startColumn := right.startPos.column,
         endColumn := right.endPos.column,
         startByte := right.startIndex, endByte := right.endIndex,
         isConstant := isConstantLiteral right }

/-- `findMemberAssignments` from `cppParser.ts`. -/
def findMemberAssignments (root : TSNode) (knownOperators : List String) :
    List ParsedParam :=
  root.preorder.filterMap (paramOfNode knownOperators)

/-- The per-node body of `findInputCalls`: recognize
`var.input("name")` calls on known operator variables. -/
def inputCallOfNode (operatorSet : List String) (n : TSNode) :
    Option ParsedInputCall := do
  guard (n.kind = "call_expression")
  let funcExpr ← n.childForFieldName "function"
  guard (funcExpr.kind = "field_expression")
  let fieldId ← funcExpr.childForFieldName "field"
  let object ← findChildOfType funcExpr "identifier"
  guard (fieldId.text = "input" ∧ operatorSet.contains object.text)
  let args ← n.childForFieldName "arguments"
  let stringLit ← findChildOfType args "string_literal"
  let inputName :=
    match findChildOfType stringLit "string_content" with
    | some stringContent => stringContent.text
    | none => stripQuotes stringLit.text
  pure { operatorVar := object.text, inputName := inputName,
         line := stringLit.startPos.row,
         startColumn := stringLit.startPos.column,
         endColumn := stringLit.endPos.column }

/-- `findInputCalls` from `cppParser.ts`. -/
def findInputCalls (root : TSNode) (knownOperators : List String) :
    List ParsedInputCall :=
  root.preorder.filterMap (inputCallOfNode knownOperators)

structure ChainParseResult where
  operators : List ParsedOperator
  params : List ParsedParam
  inputCalls : List ParsedInputCall
deriving DecidableEq

/-- `parseChainFile` from `cppParser.ts`.  The external web-tree-sitter
parser is the parameter `parse`; `parse code = none` models `parseCode`
returning `null` (parser unavailable / no tree produced). -/
def cppParseChainFile (parse : String → Option TSNode) (code : String) :
    ChainParseResult :=
  match parse code with
  | none => ⟨[], [], []⟩
  | some root =>
    let operators := findOperatorDeclarations root
    let operatorVars := operators.map ParsedOperator.variableName
    ⟨operators, findMemberAssignments root operatorVars,
     findInputCalls root operatorVars⟩

/-! ## Association-list maps (JavaScript objects / `Map`s) -/

/-- Insert-or-overwrite for a string-keyed JavaScript object: an existing key
keeps its position, a new key is appended (insertion order). -/
def upsert {α : Type} : List (String × α) → String → α → List (String × α)
  | [], key, v => [(key, v)]
  | (k, w) :: rest, key, v =>
    if k = key then (key, v) :: rest else (k, w) :: upsert rest key v

/-- Key lookup in a string-keyed association list (first match). -/
def alookup {α : Type} : List (String × α) → String → Option α
  | [], _ => none
  | (k, v) :: rest, key => if k = key then some v else alookup rest key

/-! ## JavaScript numbers -/

/-- A JavaScript number, restricted to the exact decimal values the
synchronization engine traffics in: the represented value is
`mant / 10 ^ exp10`.  The engine only ever rounds numbers (`Math.round`,
`toFixed(2)`), tests them for truthiness, and carries them around, so this
decimal embedding is exact for every operation the source performs on
them. -/
structure JSNum where
  mant : Int
  exp10 : Nat
deriving DecidableEq

/-- `JSNum.ofInt n` is the number `n`. -/
def JSNum.ofInt (n : Int) : JSNum := ⟨n, 0⟩

/-- `JSNum.tenths n` is the number `n / 10` (enough to write every value the
claims use, e.g. `2.5 = tenths 25`). -/
def JSNum.tenths (n : Int) : JSNum := ⟨n, 1⟩

/-- JavaScript `Math.round x = ⌊x + 1/2⌋` (ties toward `+∞`), computed
exactly on the decimal representation. -/
def JSNum.jsRound (x : JSNum) : Int :=
  Int.fdiv (2 * x.mant + 10 ^ x.exp10) (2 * 10 ^ x.exp10)

/-- JavaScript truthiness of a number: `0` is falsy, everything else truthy
(`NaN` is out of scope for this model). -/
def JSNum.truthy (x : JSNum) : Bool := x.mant ≠ 0

/-! ## `chainCodeSync.ts`: data model -/

/-- The cached location of one parameter assignment's value
(`ParamLocation` in `chainCodeSync.ts`). -/
structure ParamLocation where
  line : Nat
  startColumn : Nat
  endColumn : Nat
  currentValue : String
  startByte : Nat
  endByte : Nat
  isConstant : Bool
deriving DecidableEq

/-- `OperatorInfo` in `chainCodeSync.ts`. -/
structure OperatorInfo where
  variableName : String
  chainName : String
  typeName : String
  line : Nat
deriving DecidableEq

/-- One entry of the `pendingUpdates` map: the requested value and the handle
of the live debounce timer for the key. -/
structure PendingUpdate where
  value : List JSNum
  timerId : Nat
deriving DecidableEq

/-- A live `setTimeout` callback created by `scheduleParamUpdate`, with the
arguments captured by its closure. -/
structure TimerEntry where
  id : Nat
  op : String
  param : String
  value : List JSNum
  ty : String
deriving DecidableEq

/-- The key `` `${operator}.${param}` `` of the `pendingUpdates` map. -/
def updateKey (op param : String) : String := op ++ "." ++ param

def TimerEntry.key (t : TimerEntry) : String := updateKey t.op t.param

/-- The mutable fields of the `ChainCodeSync` class.  The tracked editor
document is embedded as its list of lines (`chainDocument`); `activeTimers`
holds the not-yet-fired, not-yet-cancelled debounce timeouts and
`nextTimerId` generates fresh timer handles. -/
structure SyncState where
  paramMap : List (String × List (String × ParamLocation))
  operatorInfoMap : List (String × OperatorInfo)
  chainDocument : Option (List String)
  pendingUpdates : List (String × PendingUpdate)
  activeTimers : List TimerEntry
  nextTimerId : Nat
  isUpdating : Bool
  parserInitialized : Bool
  pendingChangeLines : List Nat
deriving DecidableEq

/-- The environment a `ChainCodeSync` operation runs against: the result of
`workspace.findFiles`/`openTextDocument` for `chain.cpp`, the outcome of
`initializeParser`, and the external web-tree-sitter parser. -/
structure SyncEnv where
  findFile : Option (List String)
  initOk : Bool
  parse : String → Option TSNode

/-- `document.getText()`: the lines joined by newlines. -/
def getText : List String → String
  | [] => ""
  | [l] => l
  | l :: rest => l ++ "\n" ++ getText rest

/-! ## `chainCodeSync.ts`: value formatting -/

/-- JavaScript `value.toFixed(2)`: round to a whole number of hundredths
(nearest, ties toward the larger value, per the ECMAScript `toFixed`
algorithm) and render with exactly two digits after the decimal point. -/
def toFixed2 (q : JSNum) : String :=
  let cents : Int := (JSNum.mk (100 * q.mant) q.exp10).jsRound
  let sign := if cents < 0 then "-" else ""
  let a := cents.natAbs
  let r := a % 100
  sign ++ toString (a / 100) ++ "." ++ (if r < 10 then "0" else "") ++ toString r

/-- The regex replace `/\.?0+$/ → ""`: remove the trailing run of zeros and
the decimal point directly preceding it, if any. -/
def trimTrailingZeros (s : String) : String :=
  let t := strDropRightWhile (fun c => c = '0') s
  if t = s then s
  else if strEndsWith t "." then strDropRight t 1 else t

/-- `ChainCodeSync.formatFloat`: fixed-point with two decimals, trailing
zeros removed (but keeping at least one decimal), with the C++ `f` suffix. -/
def formatFloat (value : JSNum) : String :=
  let str := toFixed2 value
  let trimmed := trimTrailingZeros str
  (if strContainsChar trimmed '.' then trimmed else str) ++ "f"

/-- The `switch (paramType)` used by both `applyParamUpdate` and
`insertNewParam` to format the new value.  Components are read at the same
indices as the source (`value[0]` … `value[3]`); the claims only apply this
to lists long enough for every component read. -/
def formatValue (paramType : String) (value : List JSNum) : String :=
  let v := fun i => value.getD i (JSNum.ofInt 0)
  match paramType with
  | "Float" => formatFloat (v 0)
  | "Int" => toString (v 0).jsRound
  | "Bool" => if (v 0).truthy then "true" else "false"
  | "Vec2" => formatFloat (v 0) ++ ", " ++ formatFloat (v 1)
  | "Vec3" => formatFloat (v 0) ++ ", " ++ formatFloat (v 1) ++ ", " ++ formatFloat (v 2)
  | "Vec4" => formatFloat (v 0) ++ ", " ++ formatFloat (v 1) ++ ", " ++ formatFloat (v 2) ++ ", " ++ formatFloat (v 3)
  | "Color" => formatFloat (v 0) ++ ", " ++ formatFloat (v 1) ++ ", " ++ formatFloat (v 2) ++ ", " ++ formatFloat (v 3)
  | _ => formatFloat (v 0)

/-! ## `chainCodeSync.ts`: document edits (the editor's buffer operations) -/

/-- `WorkspaceEdit.replace` of a single-line range `[startColumn, endColumn)`
on line `line`. -/
def replaceInDoc (doc : List String) (line startColumn endColumn : Nat)
    (newText : String) : List String :=
  doc.set line
    (strTake (doc.getD line "") startColumn ++ newText ++
      strDrop (doc.getD line "") endColumn)

/-- Insert a fresh line (`content` followed by a newline in the source) at
position `(idx, 0)`.  When `idx` is past the last line, VS Code clamps the
position to the end of the document, appending the text to the last line and
leaving a fresh empty final line. -/
def insertLineAt (doc : List String) (idx : Nat) (content : String) :
    List String :=
  if idx < doc.length then doc.take idx ++ content :: doc.drop idx
  else doc.dropLast ++ [(doc.getLastD "") ++ content, ""]

/-- An edit applied through `vscode.workspace.applyEdit`. -/
inductive AppliedEdit : Type where
  | replace (line startColumn endColumn : Nat) (newText : String)
  | insert (line : Nat) (lineText : String)
deriving DecidableEq

/-! ## `chainCodeSync.ts`: the synchronization engine -/

/-- Rebuild `operatorInfoMap` and `paramMap` from a parse result, exactly as
the two loops of `ChainCodeSync.parseChainFile` do: operator info keyed by
chain name (with an empty param bucket initialized per operator), a reverse
`variableName → chainName` map from the info map's entries, then one
`paramMap` entry per parsed assignment whose variable names a known chain
(later assignments overwriting earlier ones). -/
def buildMaps (r : ChainParseResult) :
    List (String × OperatorInfo) × List (String × List (String × ParamLocation)) :=
  let infoMap := r.operators.foldl
    (fun m op => upsert m op.name
      { variableName := op.variableName, chainName := op.name,
        typeName := op.typeName, line := op.line }) []
  let paramMap0 := r.operators.foldl
    (fun m op => match alookup m op.name with
      | some _ => m
      | none => upsert m op.name []) []
  let varToChainName := infoMap.foldl
    (fun m kv => upsert m kv.2.variableName kv.1) []
  let paramMap := r.params.foldl
    (fun m p => match alookup varToChainName p.operatorVar with
      | none => m
      | some chainName =>
        let bucket := (alookup m chainName).getD []
        upsert m chainName (upsert bucket p.paramName
          { line := p.line, startColumn := p.startColumn,
            endColumn := p.endColumn, currentValue := p.value,
            startByte := p.startByte, endByte := p.endByte,
            isConstant := p.isConstant })) paramMap0
  (infoMap, paramMap)

/-- `ChainCodeSync.parseChainFile`: locate the document if none is tracked,
ensure the parser is initialized (returning with the maps untouched if either
step fails), then clear and rebuild both maps from the document's current
text. -/
def syncParseChainFile (env : SyncEnv) (s : SyncState) : SyncState :=
  let s :=
    match s.chainDocument with
    | some _ => s
    | none => { s with chainDocument := env.findFile }
  match s.chainDocument with
  | none => s
  | some doc =>
    let s :=
      if s.parserInitialized then s
      else { s with parserInitialized := env.initOk }
    if s.parserInitialized then
      let r := cppParseChainFile env.parse (getText doc)
      let (infoMap, paramMap) := buildMaps r
      { s with paramMap := paramMap, operatorInfoMap := infoMap }
    else s

/-- Look a parameter location up in the two-level map
(`this.paramMap[operator]?.[param]`). -/
def lookupParam (paramMap : List (String × List (String × ParamLocation)))
    (op param : String) : Option ParamLocation :=
  (alookup paramMap op).bind (fun bucket => alookup bucket param)

/-- `markLineAsPending` (the decoration update itself has no model state). -/
def markLineAsPending (lines : List Nat) (line : Nat) : List Nat :=
  if lines.contains line then lines else lines ++ [line]

/-- `ChainCodeSync.insertNewParam`: insert a brand-new assignment line after
the later of the operator's declaration line and its last known parameter
line, using the declaration line's leading whitespace as indentation — or
four spaces when that whitespace is empty (the `|| '    '` fallback, which
fires on the empty string because it is falsy in JavaScript). -/
def insertNewParam (s : SyncState) (op param : String) (value : List JSNum)
    (paramType : String) : SyncState × Option AppliedEdit :=
  match alookup s.operatorInfoMap op with
  | none => (s, none)
  | some opInfo =>
    match s.chainDocument with
    | none => (s, none)
    | some doc =>
      let valueStr := formatValue paramType value
      let insertAfterLine :=
        (match alookup s.paramMap op with
         | none => opInfo.line
         | some bucket =>
           bucket.foldl
             (fun acc kv => if kv.2.line > acc then kv.2.line else acc)
             opInfo.line)
      let declLineText := doc.getD opInfo.line ""
      let ws := strTakeWhile Char.isWhitespace declLineText
      let indent := if ws = "" then "    " else ws
      let newLine := indent ++ opInfo.variableName ++ "." ++ param ++ " = " ++
        valueStr ++ ";"
      let doc1 := insertLineAt doc (insertAfterLine + 1) newLine
      ({ s with chainDocument := some doc1,
                pendingChangeLines :=
                  markLineAsPending s.pendingChangeLines (insertAfterLine + 1) },
       some (.insert (insertAfterLine + 1) newLine))

/-- `ChainCodeSync.applyParamUpdate`: skip when a write is already in flight,
re-parse to get fresh locations, then either replace the existing value span
or fall through to `insertNewParam`.  Returns the new engine state (with the
edited document) and the edit that was applied, if any. -/
def applyParamUpdate (env : SyncEnv) (s : SyncState) (op param : String)
    (value : List JSNum) (paramType : String) : SyncState × Option AppliedEdit :=
  if s.isUpdating then (s, none)
  else
    let s1 := syncParseChainFile env s
    match lookupParam s1.paramMap op param with
    | none => insertNewParam s1 op param value paramType
    | some location =>
      match s1.chainDocument with
      | none => (s1, none)
      | some doc =>
        let newValueStr := formatValue paramType value
        let doc1 := replaceInDoc doc location.line location.startColumn
          location.endColumn newValueStr
        let location1 :=
          { location with
              endColumn := location.startColumn + strLength newValueStr,
              currentValue := newValueStr }
        let bucket := (alookup s1.paramMap op).getD []
        ({ s1 with
             chainDocument := some doc1,
             paramMap := upsert s1.paramMap op (upsert bucket param location1),
             pendingChangeLines :=
               markLineAsPending s1.pendingChangeLines location.line },
         some (.replace location.line location.startColumn location.endColumn
           newValueStr))

/-- `ChainCodeSync.scheduleParamUpdate`: cancel the pending timer for the
key, start a fresh one whose closure captures the new value, and replace the
key's `pendingUpdates` entry. -/
def scheduleParamUpdate (s : SyncState) (op param : String) (value : List JSNum)
    (paramType : String) : SyncState :=
  let key := updateKey op param
  let s :=
    match alookup s.pendingUpdates key with
    | some pending =>
      { s with activeTimers :=
          s.activeTimers.filter (fun t => t.id ≠ pending.timerId) }
    | none => s
  let tid := s.nextTimerId
  { s with
      activeTimers := s.activeTimers ++ [⟨tid, op, param, value, paramType⟩],
      pendingUpdates := upsert s.pendingUpdates key ⟨value, tid⟩,
      nextTimerId := tid + 1 }

/-- The event loop firing the due debounce timeout `tid` (only live,
uncancelled timers can fire): run `applyParamUpdate` with the captured
arguments and delete the key's `pendingUpdates` entry. -/
def timerFire (env : SyncEnv) (s : SyncState) (tid : Nat) :
    SyncState × Option AppliedEdit :=
  match s.activeTimers.find? (fun t => t.id = tid) with
  | none => (s, none)
  | some t =>
    let s := { s with activeTimers := s.activeTimers.filter (fun u => u.id ≠ tid) }
    let (s1, edit) := applyParamUpdate env s t.op t.param t.value t.ty
    ({ s1 with pendingUpdates := s1.pendingUpdates.filter (fun kv => kv.1 ≠ t.key) },
     edit)

/-- `ChainCodeSync.onDocumentChanged`: cancel every pending debounced update,
clear both location maps, and drop the tracked document so the next parse
re-opens it. -/
def onDocumentChanged (s : SyncState) : SyncState :=
  let cancelledIds := s.pendingUpdates.map (fun kv => kv.2.timerId)
  { s with
      activeTimers := s.activeTimers.filter (fun t => ¬ cancelledIds.contains t.id),
      pendingUpdates := [],
      paramMap := [],
      operatorInfoMap := [],
      chainDocument := none }

/-- `ChainCodeSync.isParamConstant`: `location?.isConstant ?? true`. -/
def isParamConstant (s : SyncState) (op param : String) : Bool :=
  ((lookupParam s.paramMap op param).map ParamLocation.isConstant).getD true

/-! ## `runtimeClient.ts`: reconnect backoff -/

/-- The reconnect bookkeeping of `RuntimeClient`: the attempt counter and
whether a reconnect timeout is currently scheduled. -/
structure RuntimeClientState where
  reconnectAttempts : Nat
  reconnectTimerPending : Bool
deriving DecidableEq

def maxReconnectAttempts : Nat := 10

/-- `RuntimeClient.scheduleReconnect`: give up once the attempt budget is
spent, keep an already-scheduled timer, otherwise schedule a reconnect after
`min(1000 * 2 ^ attempts, 30000)` milliseconds.  Returns the new state and
the scheduled delay, if one was scheduled. -/
def scheduleReconnect (s : RuntimeClientState) :
    RuntimeClientState × Option Nat :=
  if s.reconnectAttempts ≥ maxReconnectAttempts then (s, none)
  else if s.reconnectTimerPending then (s, none)
  else ({ s with reconnectTimerPending := true },
        some (min (1000 * 2 ^ s.reconnectAttempts) 30000))

/-- The reconnect timeout firing: clear the timer handle, count the attempt,
and call `connect` (whose outcome arrives later as an `open` or `close`
event). -/
def reconnectTimerFire (s : RuntimeClientState) : RuntimeClientState :=
  { s with reconnectTimerPending := false,
           reconnectAttempts := s.reconnectAttempts + 1 }

/-- The WebSocket `open` handler: a successful connection resets the attempt
counter. -/
def onOpen (s : RuntimeClientState) : RuntimeClientState :=
  { s with reconnectAttempts := 0 }

/-- The WebSocket `close` handler: schedule a reconnect. -/
def onClose (s : RuntimeClientState) : RuntimeClientState × Option Nat :=
  scheduleReconnect s

/-! ## `mcpConfigChecker.ts`: the `/prepare-for-edit` hook endpoint -/

inductive HookAction : Type where
  | proceed
  | cancel
deriving DecidableEq

/-- The three buttons of the warning dialog; dismissal is `none` at the use
site. -/
inductive UserChoice : Type where
  | saveChanges
  | discardChanges
  | cancelEdit
deriving DecidableEq

/-- The externally observable side effects the handler performs before
responding. -/
inductive HookEffect : Type where
  | prompted
  | savedDoc
  | revertedDoc
deriving DecidableEq

/-- A request body: `none` when `JSON.parse` throws, otherwise the optional
`file_path` field. -/
def HookBody : Type := Option (Option String)

/-- The `file_path && file_path.endsWith('chain.cpp')` test (an absent or
empty path is falsy). -/
def hookTargetsChain (body : HookBody) : Bool :=
  match body with
  | none => false
  | some none => false
  | some (some p) => p ≠ "" && strEndsWith p "chain.cpp"

/-- The `POST /prepare-for-edit` handler from `mcpConfigChecker.ts`, as a
function of the parsed body, whether a dirty `chain.cpp` buffer exists, and
the user's dialog choice (consulted only when the dialog is shown).  Returns
the JSON response's `action` and the ordered effects performed before
responding. -/
def prepareForEdit (body : HookBody) (dirtyChainOpen : Bool)
    (choice : Option UserChoice) : HookAction × List HookEffect :=
  match body with
  | none => (.proceed, [])
  | some filePath =>
    if dirtyChainOpen && hookTargetsChain (some filePath) then
      match choice with
      | some .saveChanges => (.proceed, [.prompted, .savedDoc])
      | some .discardChanges => (.proceed, [.prompted, .revertedDoc])
      | _ => (.cancel, [.prompted])
    else (.proceed, [])

/-! ## Concrete fixture: the spec's end-to-end chain.cpp scenario

The tracked document is

```text
auto& n = chain.add<Noise>("noise");
n.scale = 4.0f;
```

and `fxRoot sb eb` is the tree-sitter parse tree web-tree-sitter produces
for it, with the byte offsets of the `4.0f` value node left as parameters so
that theorems can vary them independently of everything else. -/

/-- Shorthand for fixture nodes whose positions are never read by the
embedded code paths. -/
def tsn (kind text : String) (children : List TSNode) : TSNode :=
  .mk kind none text ⟨0, 0⟩ ⟨0, 0⟩ 0 0 children

def fxLine0 : String := "auto& n = chain.add<Noise>(\"noise\");"

def fxLine1 : String := "n.scale = 4.0f;"

def fxDoc : List String := [fxLine0, fxLine1, ""]

def fxText : String := getText fxDoc

def fxIdentN : TSNode := tsn "identifier" "n" []

def fxTemplateMethod : TSNode :=
  tsn "template_method" "add<Noise>"
    [tsn "field_identifier" "add" [],
     tsn "template_argument_list" "<Noise>"
       [tsn "<" "<" [],
        tsn "type_descriptor" "Noise" [tsn "type_identifier" "Noise" []],
        tsn ">" ">" []]]

def fxFuncExpr : TSNode :=
  .mk "field_expression" (some "function") "chain.add<Noise>" ⟨0, 10⟩ ⟨0, 26⟩
    10 26 [tsn "identifier" "chain" [], tsn "." "." [], fxTemplateMethod]

def fxStringLit : TSNode :=
  .mk "string_literal" none "\"noise\"" ⟨0, 27⟩ ⟨0, 34⟩ 27 34
    [tsn "\"" "\"" [], tsn "string_content" "noise" [], tsn "\"" "\"" []]

def fxArgList : TSNode :=
  .mk "argument_list" (some "arguments") "(\"noise\")" ⟨0, 26⟩ ⟨0, 35⟩ 26 35
    [tsn "(" "(" [], fxStringLit, tsn ")" ")" []]

def fxCallExpr : TSNode :=
  tsn "call_expression" "chain.add<Noise>(\"noise\")" [fxFuncExpr, fxArgList]

def fxInitDecl : TSNode :=
  tsn "init_declarator" "& n = chain.add<Noise>(\"noise\")"
    [tsn "reference_declarator" "& n" [tsn "&" "&" [], fxIdentN],
     tsn "=" "=" [], fxCallExpr]

def fxDecl : TSNode :=
  .mk "declaration" none fxLine0 ⟨0, 0⟩ ⟨0, 36⟩ 0 36
    [tsn "placeholder_type_specifier" "auto" [], fxInitDecl, tsn ";" ";" []]

/-- The `4.0f` value node; its line/column span is fixed by the source text,
its byte offsets are the parameters `sb`/`eb` (47 and 51 are the true
values). -/
def fxValueNode (sb eb : Nat) : TSNode :=
  .mk "number_literal" none "4.0f" ⟨1, 10⟩ ⟨1, 14⟩ sb eb []

def fxExprStmt (sb eb : Nat) : TSNode :=
  .mk "expression_statement" none fxLine1 ⟨1, 0⟩ ⟨1, 15⟩ 37 52
    [tsn "assignment_expression" "n.scale = 4.0f"
       [tsn "field_expression" "n.scale"
          [fxIdentN, tsn "." "." [], tsn "field_identifier" "scale" []],
        tsn "=" "=" [], fxValueNode sb eb],
     tsn ";" ";" []]

def fxRoot (sb eb : Nat) : TSNode :=
  tsn "translation_unit" fxText [fxDecl, fxExprStmt sb eb]

/-- The fixture environment: the workspace finds the fixture document and the
external parser yields the fixture tree for its text. -/
def fxEnv (sb eb : Nat) : SyncEnv :=
  { findFile := some fxDoc, initOk := true,
    parse := fun code => if code = fxText then some (fxRoot sb eb) else none }

/-- A freshly constructed `ChainCodeSync` (all maps empty, nothing pending,
no document tracked yet). -/
def initialSyncState : SyncState :=
  { paramMap := [], operatorInfoMap := [], chainDocument := none,
    pendingUpdates := [], activeTimers := [], nextTimerId := 0,
    isUpdating := false, parserInitialized := false, pendingChangeLines := [] }

/-- The externally visible outcome of an engine operation: the edit it
applied (if any) and the resulting document. -/
def editView (r : SyncState × Option AppliedEdit) :
    Option AppliedEdit × Option (List String) := (r.2, r.1.chainDocument)

/-- The engine captured mid-write: `applyParamUpdate` for `noise.scale` has
set `isUpdating` and is awaiting `workspace.applyEdit`, while a second
debounced update for the same key has just come due (its timer is live and
its `pendingUpdates` entry still present). -/
def midWriteState : SyncState :=
  { paramMap := [("noise", [("scale",
      { line := 1, startColumn := 10, endColumn := 14, currentValue := "4.0f",
        startByte := 47, endByte := 51, isConstant := true })])],
    operatorInfoMap := [("noise",
      { variableName := "n", chainName := "noise", typeName := "Noise",
        line := 0 })],
    chainDocument := some fxDoc,
    pendingUpdates := [("noise.scale", ⟨[JSNum.tenths 25], 0⟩)],
    activeTimers := [⟨0, "noise", "scale", [JSNum.tenths 25], "Float"⟩],
    nextTimerId := 1, isUpdating := true, parserInitialized := true,
    pendingChangeLines := [] }

/-- The operator info the fixture parse yields for `"noise"`. -/
def fxInfo : OperatorInfo :=
  { variableName := "n", chainName := "noise", typeName := "Noise", line := 0 }

/-! ## Claim theorems -/

/-- C8: when no parse tree can be produced, `parseChainFile` returns empty
operator, parameter and input-call lists (it is a total function — it cannot
throw), so downstream updates fall through to the insert-new-line path. -/
theorem c8_parse_failure_degrades (parse : String → Option TSNode)
    (code : String) (h : parse code = none) :
    cppParseChainFile parse code = ⟨[], [], []⟩ := by
  unfold cppParseChainFile
  rw [h]

/-- Witness for C8 at a concrete input: the parser that yields no tree. -/
theorem c8_parse_failure_degrades_witness :
    cppParseChainFile (fun _ => none) "auto& n = chain.add" = ⟨[], [], []⟩ :=
  c8_parse_failure_degrades (fun _ => none) "auto& n = chain.add" rfl

/-- C10: a parameter with no cached location is treated as an editable
constant (`isParamConstant` returns `true`), while a cached location's
`isConstant` flag is returned verbatim. -/
theorem c10_unknown_param_editable (s : SyncState) (op param : String) :
    (lookupParam s.paramMap op param = none →
      isParamConstant s op param = true) ∧
    ∀ loc, lookupParam s.paramMap op param = some loc →
      isParamConstant s op param = loc.isConstant := by
  constructor
  · intro h
    simp [isParamConstant, h]
  · intro loc h
    simp [isParamConstant, h]

/-- Witness for C10: a state caching `noise.scale` answers that location's
`isConstant` flag for it and `true` for the uncached `noise.speed`. -/
theorem c10_unknown_param_editable_witness :
    isParamConstant midWriteState "noise" "speed" = true ∧
    isParamConstant midWriteState "noise" "scale" = true :=
  ⟨(c10_unknown_param_editable midWriteState "noise" "speed").1 (by decide),
   (c10_unknown_param_editable midWriteState "noise" "scale").2
     { line := 1, startColumn := 10, endColumn := 14, currentValue := "4.0f",
       startByte := 47, endByte := 51, isConstant := true } (by decide)⟩

/-- C7: with `n` attempts made so far (`n` starts at 0 and is advanced by
each firing attempt), a disconnect schedules the next reconnect after
`min(1000 * 2 ^ n, 30000)` milliseconds; once `maxReconnectAttempts = 10`
attempts have been made no reconnect is scheduled and the state is left
untouched (silent give-up — `scheduleReconnect` is total, it cannot throw);
and a successful connection resets the attempt counter to 0. -/
theorem c7_reconnect_backoff (s : RuntimeClientState) :
    (s.reconnectAttempts < maxReconnectAttempts →
      s.reconnectTimerPending = false →
      (scheduleReconnect s).2 =
        some (min (1000 * 2 ^ s.reconnectAttempts) 30000)) ∧
    (maxReconnectAttempts ≤ s.reconnectAttempts →
      scheduleReconnect s = (s, none)) ∧
    (reconnectTimerFire s).reconnectAttempts = s.reconnectAttempts + 1 ∧
    (onOpen s).reconnectAttempts = 0 := by
  refine ⟨fun hlt hp => ?_, fun hge => ?_, rfl, rfl⟩
  · simp [scheduleReconnect, hp, Nat.not_le_of_lt hlt]
  · simp [scheduleReconnect, hge]

/-- Witness for C7 at attempt counters 3 (delay 8 s) and 10 (gives up). -/
theorem c7_reconnect_backoff_witness :
    (scheduleReconnect ⟨3, false⟩).2 = some 8000 ∧
    scheduleReconnect ⟨10, false⟩ = (⟨10, false⟩, none) ∧
    (onOpen ⟨7, false⟩).reconnectAttempts = 0 :=
  ⟨by
    have h := (c7_reconnect_backoff ⟨3, false⟩).1 (by decide) rfl
    simpa using h,
   (c7_reconnect_backoff ⟨10, false⟩).2.1 (by decide),
   (c7_reconnect_backoff ⟨7, false⟩).2.2.2⟩

/-- C6: the `/prepare-for-edit` endpoint always answers exactly `proceed` or
`cancel`; it answers `proceed` with no prompt (and no save/revert) whenever
the tracked buffer is clean or the request does not target `chain.cpp`; when
the buffer is dirty and the request targets `chain.cpp` it prompts, answers
`proceed` exactly when the user picks Save (saving first) or Discard
(reverting first), and answers `cancel` (saving and reverting nothing) when
the user cancels or dismisses the prompt. -/
theorem c6_gatekeeping (body : HookBody) (dirty : Bool)
    (choice : Option UserChoice) :
    ((prepareForEdit body dirty choice).1 = HookAction.proceed ∨
      (prepareForEdit body dirty choice).1 = HookAction.cancel) ∧
    (dirty = false ∨ hookTargetsChain body = false →
      prepareForEdit body dirty choice = (HookAction.proceed, [])) ∧
    (dirty = true → hookTargetsChain body = true →
      HookEffect.prompted ∈ (prepareForEdit body dirty choice).2 ∧
      ((prepareForEdit body dirty choice).1 = HookAction.proceed ↔
        choice = some UserChoice.saveChanges ∨
        choice = some UserChoice.discardChanges) ∧
      (choice = some UserChoice.saveChanges →
        (prepareForEdit body dirty choice).2 =
          [HookEffect.prompted, HookEffect.savedDoc]) ∧
      (choice = some UserChoice.discardChanges →
        (prepareForEdit body dirty choice).2 =
          [HookEffect.prompted, HookEffect.revertedDoc]) ∧
      (choice = some UserChoice.cancelEdit ∨ choice = none →
        prepareForEdit body dirty choice =
          (HookAction.cancel, [HookEffect.prompted]))) := by
  rcases body with _ | filePath
  · refine ⟨Or.inl rfl, fun _ => rfl, fun _ htgt => ?_⟩
    simp [hookTargetsChain] at htgt
  · rcases dirty with _ | _
    · refine ⟨?_, fun _ => ?_, fun hd _ => by cases hd⟩ <;>
        simp [prepareForEdit]
    · by_cases htgt : hookTargetsChain (some filePath) = true
      · rcases choice with _ | c
        · refine ⟨Or.inr ?_, fun h => ?_, fun _ _ => ?_⟩ <;>
            simp_all [prepareForEdit]
        · cases c <;>
            refine ⟨?_, fun h => ?_, fun _ _ => ?_⟩ <;>
            simp_all [prepareForEdit]
      · rw [Bool.not_eq_true] at htgt
        refine ⟨?_, fun _ => ?_, fun _ h => ?_⟩ <;>
          simp_all [prepareForEdit]

/-- Witness for C6: a dirty buffer, a request targeting `chain.cpp`, and the
user picking Save answers `proceed` after saving. -/
theorem c6_gatekeeping_witness :
    prepareForEdit (some (some "/work/chain.cpp")) true
        (some UserChoice.saveChanges) =
      (HookAction.proceed, [HookEffect.prompted, HookEffect.savedDoc]) := by
  have h := (c6_gatekeeping (some (some "/work/chain.cpp")) true
    (some UserChoice.saveChanges)).2.2 rfl (by decide)
  have h2 := h.2.2.1 rfl
  have h1 := h.2.1.mpr (Or.inl rfl)
  rcases hp : prepareForEdit (some (some "/work/chain.cpp")) true
    (some UserChoice.saveChanges) with ⟨a, effs⟩
  rw [hp] at h1 h2
  simp at h1 h2
  rw [h1, h2]

/-- Filtering a key out of an association list makes it unfindable. -/
theorem alookup_filter_ne {α : Type} (l : List (String × α)) (k : String) :
    alookup (l.filter (fun kv => kv.1 ≠ k)) k = none := by
  induction l with
  | nil => rfl
  | cons kv rest ih =>
    by_cases h : kv.1 = k
    · simpa [List.filter, h] using ih
    · simpa [List.filter, h, alookup] using ih

/-- C2 (amended): the `isUpdating` busy flag guarantees at most one write in
flight — a call of `applyParamUpdate` arriving while a write is in flight
returns immediately with no edit and no state change — but the skipped
update is dropped, not deferred: the timer that carried it is consumed and
its `pendingUpdates` entry deleted, so nothing will ever apply it. -/
theorem c2_busy_write_skipped_and_dropped (env : SyncEnv) (s : SyncState)
    (op param : String) (value : List JSNum) (ty : String) (tid : Nat)
    (t : TimerEntry) (hbusy : s.isUpdating = true)
    (hfind : s.activeTimers.find? (fun u => u.id = tid) = some t) :
    applyParamUpdate env s op param value ty = (s, none) ∧
    (timerFire env s tid).2 = none ∧
    alookup (timerFire env s tid).1.pendingUpdates t.key = none ∧
    (timerFire env s tid).1.chainDocument = s.chainDocument := by
  have happly : ∀ (s1 : SyncState), s1.isUpdating = true →
      ∀ o p v pt, applyParamUpdate env s1 o p v pt = (s1, none) := by
    intro s1 h o p v pt
    unfold applyParamUpdate
    simp [h]
  have hfire : timerFire env s tid =
      ({ s with
           activeTimers := s.activeTimers.filter (fun u => u.id ≠ tid),
           pendingUpdates := s.pendingUpdates.filter (fun kv => kv.1 ≠ t.key) },
        none) := by
    unfold timerFire
    simp only [hfind]
    unfold applyParamUpdate
    simp [hbusy]
  refine ⟨happly s hbusy op param value ty, ?_, ?_, ?_⟩
  · rw [hfire]
  · rw [hfire]
    exact alookup_filter_ne _ _
  · rw [hfire]

/-- Witness for C2's amended theorem at the concrete mid-write state. -/
theorem c2_busy_write_skipped_and_dropped_witness :
    applyParamUpdate (fxEnv 47 51) midWriteState "noise" "scale"
        [JSNum.tenths 25] "Float" = (midWriteState, none) ∧
    (timerFire (fxEnv 47 51) midWriteState 0).2 = none ∧
    alookup (timerFire (fxEnv 47 51) midWriteState 0).1.pendingUpdates
      "noise.scale" = none ∧
    (timerFire (fxEnv 47 51) midWriteState 0).1.chainDocument =
      midWriteState.chainDocument :=
  c2_busy_write_skipped_and_dropped (fxEnv 47 51) midWriteState "noise"
    "scale" [JSNum.tenths 25] "Float" 0
    ⟨0, "noise", "scale", [JSNum.tenths 25], "Float"⟩ rfl (by decide)

/-- C2 counterexample: the claim promises that an update arriving while a
write is in flight is "blocked but not dropped — eventually applied".  At
the concrete mid-write state, firing the due debounce timer for the second
update applies no edit, leaves the document untouched, and erases both the
timer and the `pendingUpdates` entry — no trace of the requested value
survives anywhere in the engine state, so it is never applied. -/
theorem c2_counterexample :
    (timerFire (fxEnv 47 51) midWriteState 0).2 = none ∧
    (timerFire (fxEnv 47 51) midWriteState 0).1.pendingUpdates = [] ∧
    (timerFire (fxEnv 47 51) midWriteState 0).1.activeTimers = [] ∧
    (timerFire (fxEnv 47 51) midWriteState 0).1.chainDocument = some fxDoc := by
  decide

/-- C4 counterexample: the downstream replacement does not use the byte
offsets the parser captures.  Two parser fixtures identical except for the
`4.0f` node's `startIndex`/`endIndex` (47/51, the true offsets, versus the
nonsensical 1047/1051) yield different parse results but the very same
applied edit and resulting document — so captured byte offsets cannot be
what makes the replacement exact: the edit range is built from line and
column spans only (`new vscode.Range(location.line, location.startColumn,
location.line, location.endColumn)`). -/
theorem c4_counterexample :
    ((cppParseChainFile (fxEnv 47 51).parse fxText).params.map
        ParsedParam.startByte = [47] ∧
      (cppParseChainFile (fxEnv 1047 1051).parse fxText).params.map
        ParsedParam.startByte = [1047]) ∧
    editView (timerFire (fxEnv 47 51)
      (scheduleParamUpdate initialSyncState "noise" "scale"
        [JSNum.tenths 25] "Float") 0) =
    editView (timerFire (fxEnv 1047 1051)
      (scheduleParamUpdate initialSyncState "noise" "scale"
        [JSNum.tenths 25] "Float") 0) := by
  decide

/-- C4 (amended): the parser does capture the value's byte offsets
(`startByte = 47`, `endByte = 51` for `4.0f`), but the downstream
replacement is driven by the line/column span; on the all-ASCII scenario
source, scheduling `(noise, scale, [2.5], Float)` and letting the debounce
fire replaces exactly the `4.0f` span (line 1, columns 10–14) with `2.5f`
and leaves every other character of the document unchanged. -/
theorem c4_exact_ascii_replacement :
    (cppParseChainFile (fxEnv 47 51).parse fxText).params =
      [{ operatorVar := "n", paramName := "scale", value := "4.0f", line := 1,
         startColumn := 10, endColumn := 14, startByte := 47, endByte := 51,
         isConstant := true }] ∧
    (timerFire (fxEnv 47 51)
      (scheduleParamUpdate initialSyncState "noise" "scale"
        [JSNum.tenths 25] "Float") 0).2 =
      some (.replace 1 10 14 "2.5f") ∧
    (timerFire (fxEnv 47 51)
      (scheduleParamUpdate initialSyncState "noise" "scale"
        [JSNum.tenths 25] "Float") 0).1.chainDocument =
      some [fxLine0, "n.scale = 2.5f;", ""] := by
  decide

/-- C5 counterexample: inserting `noise.speed` into the scenario source puts
exactly one new line after the last parameter line, but its leading
indentation is four spaces while the declaration line's leading indentation
is empty — the `|| '    '` fallback replaces an empty indentation, so the
inserted line does not carry "the same leading indentation as the
declaration line". -/
theorem c5_counterexample :
    (timerFire (fxEnv 47 51)
      (scheduleParamUpdate initialSyncState "noise" "speed"
        [JSNum.ofInt 1] "Float") 0).2 =
      some (.insert 2 "    n.speed = 1.00f;") ∧
    (timerFire (fxEnv 47 51)
      (scheduleParamUpdate initialSyncState "noise" "speed"
        [JSNum.ofInt 1] "Float") 0).1.chainDocument =
      some [fxLine0, fxLine1, "    n.speed = 1.00f;", ""] ∧
    strTakeWhile Char.isWhitespace fxLine0 = "" ∧
    strTakeWhile Char.isWhitespace "    n.speed = 1.00f;" = "    " := by
  decide

/-- The running-maximum fold of `insertNewParam` (over an operator's cached
parameter bucket, seeded with the declaration line) computes exactly the
later of the seed and the last known parameter line: the result is an upper
bound of seed and bucket lines and is attained by one of them. -/
theorem foldl_maxLine (l : List (String × ParamLocation)) (a : Nat) :
    a ≤ l.foldl (fun acc kv => if kv.2.line > acc then kv.2.line else acc) a ∧
    (l.foldl (fun acc kv => if kv.2.line > acc then kv.2.line else acc) a = a ∨
      ∃ kv ∈ l, kv.2.line =
        l.foldl (fun acc kv => if kv.2.line > acc then kv.2.line else acc) a) ∧
    ∀ kv ∈ l, kv.2.line ≤
      l.foldl (fun acc kv => if kv.2.line > acc then kv.2.line else acc) a := by
  induction l generalizing a with
  | nil => simp
  | cons kv rest ih =>
    simp only [List.foldl_cons]
    obtain ⟨ih1, ih2, ih3⟩ := ih (if kv.2.line > a then kv.2.line else a)
    refine ⟨?_, ?_, ?_⟩
    · exact le_trans (by split <;> omega) ih1
    · rcases ih2 with h | ⟨kv2, hmem, hline⟩
      · rw [h]
        split
        · exact Or.inr ⟨kv, List.mem_cons_self kv rest, by omega⟩
        · exact Or.inl rfl
      · exact Or.inr ⟨kv2, List.mem_cons_of_mem kv hmem, hline⟩
    · intro kv2 hmem
      rcases List.mem_cons.mp hmem with h | h
      · subst h
        exact le_trans (by split <;> omega) ih1
      · exact ih3 kv2 h

/-- C5 (amended): when the fresh parse declares the entity but records no
assignment for `(entity, param)`, `applyParamUpdate` inserts exactly one new
line `indent + variableName.param = value;` immediately after the later of
the declaration line and the entity's last known parameter line, where
`indent` is the declaration line's leading whitespace when that is nonempty
and four spaces when the declaration line starts at column zero. -/
theorem c5_insert_placement (env : SyncEnv) (s : SyncState) (op param : String)
    (value : List JSNum) (ty : String) (info : OperatorInfo)
    (doc : List String) (hbusy : s.isUpdating = false)
    (hinfo : alookup (syncParseChainFile env s).operatorInfoMap op = some info)
    (hmiss : lookupParam (syncParseChainFile env s).paramMap op param = none)
    (hdoc : (syncParseChainFile env s).chainDocument = some doc)
    (hne : doc ≠ []) :
    ∃ insertAfter newLine,
      newLine =
        (if strTakeWhile Char.isWhitespace (doc.getD info.line "") = ""
          then "    "
          else strTakeWhile Char.isWhitespace (doc.getD info.line "")) ++
        info.variableName ++ "." ++ param ++ " = " ++ formatValue ty value ++
        ";" ∧
      info.line ≤ insertAfter ∧
      (insertAfter = info.line ∨
        ∃ kv ∈ (alookup (syncParseChainFile env s).paramMap op).getD [],
          kv.2.line = insertAfter) ∧
      (∀ kv ∈ (alookup (syncParseChainFile env s).paramMap op).getD [],
        kv.2.line ≤ insertAfter) ∧
      (applyParamUpdate env s op param value ty).2 =
        some (.insert (insertAfter + 1) newLine) ∧
      (applyParamUpdate env s op param value ty).1.chainDocument =
        some (insertLineAt doc (insertAfter + 1) newLine) ∧
      (insertLineAt doc (insertAfter + 1) newLine).length = doc.length + 1 := by
  have hlen : ∀ (idx : Nat) (content : String),
      (insertLineAt doc idx content).length = doc.length + 1 := by
    intro idx content
    unfold insertLineAt
    split
    · rename_i hlt
      simp [List.length_append, List.length_take, List.length_drop]
      omega
    · have : doc.length ≠ 0 := fun h0 => hne (List.length_eq_zero.mp h0)
      simp [List.length_append, List.length_dropLast]
      omega
  have happ : applyParamUpdate env s op param value ty =
      insertNewParam (syncParseChainFile env s) op param value ty := by
    unfold applyParamUpdate
    rw [if_neg (by simp [hbusy])]
    simp only [hmiss]
  rw [happ]
  unfold insertNewParam
  rw [hinfo, hdoc]
  cases halo : alookup (syncParseChainFile env s).paramMap op with
  | none =>
    refine ⟨info.line, _, rfl, le_refl _, Or.inl rfl, by simp [halo], ?_, ?_, ?_⟩
    · simp [halo]
    · simp [halo]
    · exact hlen _ _
  | some bucket =>
    obtain ⟨h1, h2, h3⟩ := foldl_maxLine bucket info.line
    refine ⟨bucket.foldl
        (fun acc kv => if kv.2.line > acc then kv.2.line else acc) info.line,
      _, rfl, h1, ?_, by simpa [halo] using h3, ?_, ?_, ?_⟩
    · rcases h2 with h | ⟨kv, hmem, hline⟩
      · exact Or.inl h
      · exact Or.inr ⟨kv, by simpa [halo] using hmem, hline⟩
    · simp [halo]
    · simp [halo]
    · exact hlen _ _

/-- Witness for C5's amended theorem: inserting `noise.speed` into the
fixture (declaration on line 0, `scale` on line 1) lands on line 2. -/
theorem c5_insert_placement_witness :
    ∃ insertAfter newLine,
      newLine =
        (if strTakeWhile Char.isWhitespace (fxDoc.getD fxInfo.line "") = ""
          then "    "
          else strTakeWhile Char.isWhitespace (fxDoc.getD fxInfo.line "")) ++
        fxInfo.variableName ++ "." ++ "speed" ++ " = " ++
        formatValue "Float" [JSNum.ofInt 1] ++ ";" ∧
      fxInfo.line ≤ insertAfter ∧
      (insertAfter = fxInfo.line ∨
        ∃ kv ∈ (alookup (syncParseChainFile (fxEnv 47 51)
          initialSyncState).paramMap "noise").getD [],
          kv.2.line = insertAfter) ∧
      (∀ kv ∈ (alookup (syncParseChainFile (fxEnv 47 51)
          initialSyncState).paramMap "noise").getD [],
        kv.2.line ≤ insertAfter) ∧
      (applyParamUpdate (fxEnv 47 51) initialSyncState "noise" "speed"
          [JSNum.ofInt 1] "Float").2 =
        some (.insert (insertAfter + 1) newLine) ∧
      (applyParamUpdate (fxEnv 47 51) initialSyncState "noise" "speed"
          [JSNum.ofInt 1] "Float").1.chainDocument =
        some (insertLineAt fxDoc (insertAfter + 1) newLine) ∧
      (insertLineAt fxDoc (insertAfter + 1) newLine).length =
        fxDoc.length + 1 :=
  c5_insert_placement (fxEnv 47 51) initialSyncState "noise" "speed"
    [JSNum.ofInt 1] "Float" fxInfo fxDoc rfl (by decide) (by decide)
    (by decide) (by decide)

/-- C9: every parameter assignment the parser emits is classified from its
right-hand value node by `isConstantLiteral`: `isConstant` is `true` exactly
when that node is a number literal, the keyword `true` or `false`, or a
string literal — any other right-hand side (identifier, arithmetic
expression, function call, ...) yields `false`.  The value node is pinned
down by the emitted text and offsets. -/
theorem c9_literal_classification (root : TSNode) (ops : List String)
    (p : ParsedParam) (hp : p ∈ findMemberAssignments root ops) :
    ∃ valueNode : TSNode,
      p.value = valueNode.text ∧
      p.startByte = valueNode.startIndex ∧
      p.endByte = valueNode.endIndex ∧
      p.isConstant = isConstantLiteral valueNode ∧
      (p.isConstant = true ↔
        valueNode.kind = "number_literal" ∨ valueNode.kind = "true" ∨
        valueNode.kind = "false" ∨ valueNode.kind = "string_literal") := by
  rw [findMemberAssignments, List.mem_filterMap] at hp
  obtain ⟨n, hmem, hn⟩ := hp
  unfold paramOfNode at hn
  simp only [Option.pure_def, Option.bind_eq_bind, Option.bind_eq_some,
    Option.guard_eq_some', exists_and_left, exists_eq_left] at hn
  obtain ⟨hkind, -, assignExpr, hassign, left, hleft, right, hright, hlkind,
    -, object, hobject, fieldId, hfieldid, hops, -, hpure⟩ := hn
  rw [Option.some_inj] at hpure
  subst hpure
  refine ⟨right, rfl, rfl, rfl, rfl, ?_⟩
  simp only [isConstantLiteral, Bool.or_eq_true, decide_eq_true_eq]
  tauto

/-- `ChainCodeSync.parseChainFile` when a document is available (already
tracked, or found by `findChainFile`) and the parser is initialized: both
caches are rebuilt from scratch out of the document's current text. -/
theorem syncParseChainFile_some (env : SyncEnv) (s : SyncState)
    (doc : List String) (hinit : s.parserInitialized = true)
    (hdoc : (match s.chainDocument with
             | some d => some d
             | none => env.findFile) = some doc) :
    syncParseChainFile env s =
      { s with
          chainDocument := some doc
          operatorInfoMap := (buildMaps (cppParseChainFile env.parse (getText doc))).1
          paramMap := (buildMaps (cppParseChainFile env.parse (getText doc))).2 } := by
  unfold syncParseChainFile
  cases hc : s.chainDocument with
  | some d =>
    rw [hc] at hdoc
    obtain rfl : d = doc := by simpa using hdoc
    simp [hc, hinit]
  | none =>
    rw [hc] at hdoc
    simp only [] at hdoc
    simp [hc, hdoc, hinit]

/-- `ChainCodeSync.parseChainFile` when no document is tracked and none can
be found: it returns before touching either cache. -/
theorem syncParseChainFile_none (env : SyncEnv) (s : SyncState)
    (h1 : s.chainDocument = none) (h2 : env.findFile = none) :
    syncParseChainFile env s = { s with chainDocument := none } := by
  unfold syncParseChainFile
  simp [h1, h2]

/-- `insertNewParam` is inert without a tracked document. -/
theorem insertNewParam_noDoc (s1 : SyncState) (op param : String)
    (value : List JSNum) (ty : String) (h : s1.chainDocument = none) :
    insertNewParam s1 op param value ty = (s1, none) := by
  unfold insertNewParam
  cases halo : alookup s1.operatorInfoMap op with
  | none => rfl
  | some info => simp [h]

/-- `applyParamUpdate` is inert (no edit, no document) when no document is
tracked and none can be found. -/
theorem applyParamUpdate_noDoc (env : SyncEnv) (s : SyncState)
    (op param : String) (value : List JSNum) (ty : String)
    (hup : s.isUpdating = false) (hdoc : s.chainDocument = none)
    (hff : env.findFile = none) :
    editView (applyParamUpdate env s op param value ty) = (none, none) := by
  have e := syncParseChainFile_none env s hdoc hff
  unfold applyParamUpdate
  rw [if_neg (by simp [hup]), e]
  cases hlk : lookupParam ({ s with chainDocument := none } :
      SyncState).paramMap op param with
  | none =>
    simp only [hlk]
    rw [insertNewParam_noDoc _ _ _ _ _ rfl]
    rfl
  | some loc =>
    simp only [hlk]
    rfl

/-- C1 (freshness invariant): first, the edit `applyParamUpdate` applies and
the document it leaves behind are independent of whatever `paramMap` and
`operatorInfoMap` held when the call started — every location that reaches
an edit comes from the full re-parse (`parseChainFile`) of the document's
current text performed inside the call, so a stale cache can never place an
edit.  (The `parserInitialized = true` hypothesis excludes the unreachable
states where the maps are nonempty although the parser never ran.)  Second,
`onDocumentChanged` empties both maps, drops the tracked document, and
deletes every pending update while cancelling its debounce timer, so no
previously scheduled edit can fire afterwards. -/
theorem c1_freshness :
    (∀ (env : SyncEnv) (s : SyncState)
        (pm : List (String × List (String × ParamLocation)))
        (om : List (String × OperatorInfo)) (op param : String)
        (value : List JSNum) (ty : String),
      s.parserInitialized = true →
      editView (applyParamUpdate env
          { s with paramMap := pm, operatorInfoMap := om } op param value ty) =
        editView (applyParamUpdate env s op param value ty)) ∧
    (∀ s : SyncState,
      (onDocumentChanged s).paramMap = [] ∧
      (onDocumentChanged s).operatorInfoMap = [] ∧
      (onDocumentChanged s).pendingUpdates = [] ∧
      (onDocumentChanged s).chainDocument = none ∧
      ∀ kv ∈ s.pendingUpdates, ∀ t ∈ (onDocumentChanged s).activeTimers,
        t.id ≠ kv.2.timerId) := by
  constructor
  · intro env s pm om op param value ty hinit
    by_cases hup : s.isUpdating = true
    · unfold applyParamUpdate
      simp [hup, editView]
    · rw [Bool.not_eq_true] at hup
      cases hc : (match s.chainDocument with
                  | some d => some d
                  | none => env.findFile) with
      | some doc =>
        have e1 := syncParseChainFile_some env s doc hinit hc
        have e2 := syncParseChainFile_some env
          { s with paramMap := pm, operatorInfoMap := om } doc
          (by simpa using hinit) (by simpa using hc)
        unfold applyParamUpdate
        rw [if_neg (by simp [hup]), if_neg (by simp [hup]), e1, e2]
      | none =>
        have hdoc : s.chainDocument = none := by
          cases hcd : s.chainDocument with
          | none => rfl
          | some d => rw [hcd] at hc; cases hc
        have hff : env.findFile = none := by
          rw [hdoc] at hc
          exact hc
        rw [applyParamUpdate_noDoc env _ op param value ty
              (by simpa using hup) (by simpa using hdoc) hff,
            applyParamUpdate_noDoc env s op param value ty hup hdoc hff]
  · intro s
    refine ⟨rfl, rfl, rfl, rfl, ?_⟩
    intro kv hkv t ht heq
    unfold onDocumentChanged at ht
    rw [List.mem_filter] at ht
    obtain ⟨htmem, hnotin⟩ := ht
    simp only [decide_eq_true_eq] at hnotin
    have hmem : t.id ∈ s.pendingUpdates.map (fun kv => kv.2.timerId) :=
      List.mem_map.mpr ⟨kv, hkv, heq.symm⟩
    exact hnotin (List.elem_iff.mpr hmem)

/-- Upserted keys are found with the new value. -/
theorem alookup_upsert_self {α : Type} (m : List (String × α)) (k : String)
    (v : α) : alookup (upsert m k v) k = some v := by
  induction m with
  | nil => simp [upsert, alookup]
  | cons kv rest ih =>
    obtain ⟨k1, w⟩ := kv
    by_cases h : k1 = k
    · simp [upsert, alookup, h]
    · simp [upsert, alookup, h, ih]

/-- The keys after an upsert are the old keys plus possibly the new key. -/
theorem mem_keys_upsert {α : Type} (m : List (String × α)) (k a : String)
    (v : α) (ha : a ∈ (upsert m k v).map Prod.fst) :
    a ∈ m.map Prod.fst ∨ a = k := by
  induction m with
  | nil => simpa [upsert] using ha
  | cons kv rest ih =>
    obtain ⟨k1, w⟩ := kv
    by_cases h : k1 = k
    · simp only [upsert, if_pos h] at ha
      rcases List.mem_map.mp ha with ⟨kv2, hmem, hfst⟩
      rcases List.mem_cons.mp hmem with h2 | h2
      · subst h2; exact Or.inr hfst.symm
      · exact Or.inl (List.mem_map.mpr ⟨kv2, List.mem_cons_of_mem _ h2, hfst⟩)
    · simp only [upsert, if_neg h, List.map_cons, List.mem_cons] at ha ⊢
      rcases ha with h2 | h2
      · exact Or.inl (Or.inl h2)
      · rcases ih h2 with h3 | h3
        · exact Or.inl (Or.inr h3)
        · exact Or.inr h3

/-- Upserting preserves distinctness of keys. -/
theorem keys_nodup_upsert {α : Type} (m : List (String × α)) (k : String)
    (v : α) (h : (m.map Prod.fst).Nodup) :
    ((upsert m k v).map Prod.fst).Nodup := by
  induction m with
  | nil => simp [upsert]
  | cons kv rest ih =>
    obtain ⟨k1, w⟩ := kv
    simp only [List.map_cons, List.nodup_cons] at h
    obtain ⟨hnotin, hrest⟩ := h
    by_cases hk : k1 = k
    · subst hk
      have hups : upsert ((k1, w) :: rest) k1 v = (k1, v) :: rest := by
        simp [upsert]
      rw [hups, List.map_cons, List.nodup_cons]
      exact ⟨hnotin, hrest⟩
    · simp only [upsert, if_neg hk, List.map_cons, List.nodup_cons]
      refine ⟨fun hmem => ?_, ih hrest⟩
      rcases mem_keys_upsert rest k k1 v hmem with h2 | h2
      · exact hnotin h2
      · exact hk h2

/-- An association list with distinct keys holds at most one entry per key;
after an upsert the key's entries are exactly the new one. -/
theorem filter_key_upsert {α : Type} (m : List (String × α)) (k : String)
    (v : α) (h : (m.map Prod.fst).Nodup) :
    (upsert m k v).filter (fun kv => kv.1 = k) = [(k, v)] := by
  induction m with
  | nil => simp [upsert]
  | cons kv rest ih =>
    obtain ⟨k1, w⟩ := kv
    simp only [List.map_cons, List.nodup_cons] at h
    obtain ⟨hnotin, hrest⟩ := h
    by_cases hk : k1 = k
    · subst hk
      have hups : upsert ((k1, w) :: rest) k1 v = (k1, v) :: rest := by
        simp [upsert]
      have hnil : rest.filter (fun kv => kv.1 = k1) = [] := by
        rw [List.filter_eq_nil_iff]
        intro kv2 hmem
        simp only [decide_eq_true_eq]
        intro hfst
        exact hnotin (List.mem_map.mpr ⟨kv2, hmem, hfst⟩)
      rw [hups]
      simp [List.filter_cons, hnil]
    · simp only [upsert, if_neg hk, List.filter_cons, decide_eq_true_eq]
      exact ih hrest

/-- The three components `scheduleParamUpdate` rewrites: replace the key's
pending entry, append a fresh timer (cancelling the one the key previously
held, if any), and advance the timer-handle counter. -/
theorem scheduleParamUpdate_parts (s : SyncState) (op param : String)
    (v : List JSNum) (ty : String) :
    (scheduleParamUpdate s op param v ty).pendingUpdates =
      upsert s.pendingUpdates (updateKey op param) ⟨v, s.nextTimerId⟩ ∧
    (scheduleParamUpdate s op param v ty).nextTimerId = s.nextTimerId + 1 ∧
    (scheduleParamUpdate s op param v ty).activeTimers =
      (match alookup s.pendingUpdates (updateKey op param) with
       | some pending =>
         s.activeTimers.filter (fun t => t.id ≠ pending.timerId)
       | none => s.activeTimers) ++
        [⟨s.nextTimerId, op, param, v, ty⟩] := by
  unfold scheduleParamUpdate
  rcases h : alookup s.pendingUpdates (updateKey op param) with _ | pu <;>
    simp [h]

/-- C3 (last-write-wins coalescing): scheduling `v1` and then `v2` for the
same `(entity, param)` key before any timer fires cancels the first timer
(its handle is live nowhere), leaves exactly one `pendingUpdates` entry for
the key — holding `v2` — and leaves exactly one live debounce timer for the
key, whose captured arguments are `(op, param, v2, ty)`; so the one edit
that eventually fires for the key is computed from `v2`, and `v1` is never
written.  The hypotheses are the engine's timer-bookkeeping invariants:
pending keys are distinct, and every live timer is the one recorded for its
key in `pendingUpdates`. -/
theorem c3_debounce_coalescing (s : SyncState) (op param : String)
    (v1 v2 : List JSNum) (ty : String)
    (hnodup : (s.pendingUpdates.map Prod.fst).Nodup)
    (hmatch : ∀ t ∈ s.activeTimers, ∃ pu,
      alookup s.pendingUpdates t.key = some pu ∧ pu.timerId = t.id) :
    (scheduleParamUpdate (scheduleParamUpdate s op param v1 ty) op param v2
        ty).pendingUpdates.filter (fun kv => kv.1 = updateKey op param) =
      [(updateKey op param,
        ⟨v2, (scheduleParamUpdate s op param v1 ty).nextTimerId⟩)] ∧
    (∀ t ∈ (scheduleParamUpdate (scheduleParamUpdate s op param v1 ty) op
        param v2 ty).activeTimers, t.id ≠ s.nextTimerId) ∧
    (scheduleParamUpdate (scheduleParamUpdate s op param v1 ty) op param v2
        ty).activeTimers.filter (fun t => t.key = updateKey op param) =
      [⟨(scheduleParamUpdate s op param v1 ty).nextTimerId, op, param, v2,
        ty⟩] := by
  obtain ⟨p1, n1, a1⟩ := scheduleParamUpdate_parts s op param v1 ty
  obtain ⟨p2, n2, a2⟩ :=
    scheduleParamUpdate_parts (scheduleParamUpdate s op param v1 ty) op param
      v2 ty
  have hcancel : alookup (scheduleParamUpdate s op param v1
      ty).pendingUpdates (updateKey op param) =
      some ⟨v1, s.nextTimerId⟩ := by
    rw [p1]
    exact alookup_upsert_self _ _ _
  have a2simp : (scheduleParamUpdate (scheduleParamUpdate s op param v1 ty)
      op param v2 ty).activeTimers =
      (scheduleParamUpdate s op param v1 ty).activeTimers.filter
        (fun t => t.id ≠ s.nextTimerId) ++
      [⟨(scheduleParamUpdate s op param v1 ty).nextTimerId, op, param, v2,
        ty⟩] := by
    rw [a2, hcancel]
  refine ⟨?_, ?_, ?_⟩
  · rw [p2, p1]
    exact filter_key_upsert _ _ _ (keys_nodup_upsert _ _ _ hnodup)
  · intro t ht
    rw [a2simp, List.mem_append] at ht
    rcases ht with ht | ht
    · rw [List.mem_filter] at ht
      simpa using ht.2
    · rw [List.mem_singleton] at ht
      subst ht
      simp only [n1]
      omega
  · rw [a2simp, List.filter_append]
    have hnew : List.filter (fun t : TimerEntry => t.key = updateKey op param)
        [⟨(scheduleParamUpdate s op param v1 ty).nextTimerId, op, param, v2,
          ty⟩] =
        [⟨(scheduleParamUpdate s op param v1 ty).nextTimerId, op, param, v2,
          ty⟩] := by
      simp [TimerEntry.key]
    rw [hnew, List.filter_eq_nil_iff.mpr, List.nil_append]
    intro t ht
    rw [List.mem_filter] at ht
    obtain ⟨ht1, htid⟩ := ht
    simp only [decide_eq_true_eq] at htid ⊢
    intro hkey
    rw [a1, List.mem_append] at ht1
    rcases ht1 with ht1 | ht1
    · have htmem : t ∈ s.activeTimers := by
        cases halo : alookup s.pendingUpdates (updateKey op param) with
        | none => rwa [halo] at ht1
        | some pu =>
          rw [halo] at ht1
          exact (List.mem_filter.mp ht1).1
      obtain ⟨pu, hpu, hpuid⟩ := hmatch t htmem
      rw [hkey] at hpu
      rw [hpu] at ht1
      rw [List.mem_filter] at ht1
      have := ht1.2
      simp only [decide_eq_true_eq] at this
      exact this hpuid.symm
    · rw [List.mem_singleton] at ht1
      subst ht1
      exact htid rfl

/-- Witness for C1: against the fixture environment, an engine whose caches
were poisoned with stale junk applies the very same edit (and leaves the
same document) as one with empty caches, and `onDocumentChanged` empties the
mid-write state's caches and pending updates. -/
theorem c1_freshness_witness :
    editView (applyParamUpdate (fxEnv 47 51)
        { { initialSyncState with parserInitialized := true } with
            paramMap := [("noise", [("scale",
              { line := 0, startColumn := 0, endColumn := 1,
                currentValue := "9", startByte := 0, endByte := 1,
                isConstant := false })])],
            operatorInfoMap := [("stale", fxInfo)] }
        "noise" "scale" [JSNum.tenths 25] "Float") =
      editView (applyParamUpdate (fxEnv 47 51)
        { initialSyncState with parserInitialized := true }
        "noise" "scale" [JSNum.tenths 25] "Float") ∧
    (onDocumentChanged midWriteState).paramMap = [] ∧
    (onDocumentChanged midWriteState).operatorInfoMap = [] ∧
    (onDocumentChanged midWriteState).pendingUpdates = [] :=
  ⟨c1_freshness.1 (fxEnv 47 51)
      { initialSyncState with parserInitialized := true }
      [("noise", [("scale",
        { line := 0, startColumn := 0, endColumn := 1, currentValue := "9",
          startByte := 0, endByte := 1, isConstant := false })])]
      [("stale", fxInfo)] "noise" "scale" [JSNum.tenths 25] "Float" rfl,
   (c1_freshness.2 midWriteState).1,
   (c1_freshness.2 midWriteState).2.1,
   (c1_freshness.2 midWriteState).2.2.1⟩

/-- Witness for C3 at the freshly constructed engine: scheduling `1` then
`2.5` for `noise.scale` leaves one pending entry and one live timer, both
carrying `2.5`. -/
theorem c3_debounce_coalescing_witness :
    (scheduleParamUpdate (scheduleParamUpdate initialSyncState "noise"
        "scale" [JSNum.ofInt 1] "Float") "noise" "scale" [JSNum.tenths 25]
        "Float").pendingUpdates.filter
        (fun kv => kv.1 = updateKey "noise" "scale") =
      [(updateKey "noise" "scale",
        ⟨[JSNum.tenths 25], (scheduleParamUpdate initialSyncState "noise"
          "scale" [JSNum.ofInt 1] "Float").nextTimerId⟩)] ∧
    (scheduleParamUpdate (scheduleParamUpdate initialSyncState "noise"
        "scale" [JSNum.ofInt 1] "Float") "noise" "scale" [JSNum.tenths 25]
        "Float").activeTimers.filter
        (fun t => t.key = updateKey "noise" "scale") =
      [⟨(scheduleParamUpdate initialSyncState "noise" "scale"
          [JSNum.ofInt 1] "Float").nextTimerId, "noise", "scale",
        [JSNum.tenths 25], "Float"⟩] :=
  ⟨(c3_debounce_coalescing initialSyncState "noise" "scale" [JSNum.ofInt 1]
      [JSNum.tenths 25] "Float" (by simp [initialSyncState])
      (fun t ht => absurd ht (List.not_mem_nil t))).1,
   (c3_debounce_coalescing initialSyncState "noise" "scale" [JSNum.ofInt 1]
      [JSNum.tenths 25] "Float" (by simp [initialSyncState])
      (fun t ht => absurd ht (List.not_mem_nil t))).2.2⟩

/-- Witness for C9 at the fixture assignment `n.scale = 4.0f;`. -/
theorem c9_literal_classification_witness :
    ∃ valueNode : TSNode,
      ({ operatorVar := "n", paramName := "scale", value := "4.0f", line := 1,
         startColumn := 10, endColumn := 14, startByte := 47, endByte := 51,
         isConstant := true } : ParsedParam).value = valueNode.text ∧
      ({ operatorVar := "n", paramName := "scale", value := "4.0f", line := 1,
         startColumn := 10, endColumn := 14, startByte := 47, endByte := 51,
         isConstant := true } : ParsedParam).startByte =
        valueNode.startIndex ∧
      ({ operatorVar := "n", paramName := "scale", value := "4.0f", line := 1,
         startColumn := 10, endColumn := 14, startByte := 47, endByte := 51,
         isConstant := true } : ParsedParam).endByte = valueNode.endIndex ∧
      ({ operatorVar := "n", paramName := "scale", value := "4.0f", line := 1,
         startColumn := 10, endColumn := 14, startByte := 47, endByte := 51,
         isConstant := true } : ParsedParam).isConstant =
        isConstantLiteral valueNode ∧
      (({ operatorVar := "n", paramName := "scale", value := "4.0f", line := 1,
          startColumn := 10, endColumn := 14, startByte := 47, endByte := 51,
          isConstant := true } : ParsedParam).isConstant = true ↔
        valueNode.kind = "number_literal" ∨ valueNode.kind = "true" ∨
        valueNode.kind = "false" ∨ valueNode.kind = "string_literal") :=
  c9_literal_classification (fxRoot 47 51) ["n"]
    { operatorVar := "n", paramName := "scale", value := "4.0f", line := 1,
      startColumn := 10, endColumn := 14, startByte := 47, endByte := 51,
      isConstant := true } (by decide)
